import Mathlib

/-!
Shallow embedding of the Wythoff-construction engine of
`src/polytopes/models.py`: the `BasePolytope` vertex/edge/face builders,
the `Polyhedra`/`Polychora` constructor validation, and the `Snub` variant.

The coset-enumeration collaborator (`todd_coxeter.CosetTable`) and the
linear-algebra helpers are external to the engine; they are abstracted as
parameters (`Collab`, reflection maps) following their interface contract.
Geometric vectors are an arbitrary type `V`, reflections are functions
`Nat → V → V` (applying the w-th reflection matrix to a row vector).
-/

namespace Polytopes

/-- A word: a sequence of generator indices (a Python tuple of ints). -/
abbrev Word := List Nat

/-- Result of a coset enumeration, per the collaborator contract:
an action table `(coset, generator) → coset`, one minimal-length
representative word per coset, and the coset count. -/
structure EnumResult where
  table : Nat → Nat → Nat
  words : List Word
  count : Nat

/-- The enumeration collaborator: `enum generators relations subgroupGens`. -/
structure Collab where
  enum : List Nat → List Word → List Word → EnumResult

/-- `itertools.combinations(l, 2)`: all pairs of elements of `l` in order,
first component occurring strictly before the second. -/
def combinations2 : List Nat → List (Nat × Nat)
  | [] => []
  | x :: xs => xs.map (fun y => (x, y)) ++ combinations2 xs

/-- Python `(i, j) * m`: the word `i j i j … i j` with `m` copies of `(i, j)`. -/
def wordPow (i j : Nat) (m : Nat) : Word :=
  (List.replicate m ([i, j] : Word)).flatten

/-- Modelled from the spec: `helpers.get_coxeter_matrix` (the linear-algebra
collaborator file is not part of the engine source). Builds the symmetric
Coxeter matrix with unit diagonal from the upper-triangle entries: three
entries `(m01, m02, m12)` give a 3×3 matrix, six entries
`(m01, m02, m03, m12, m13, m23)` give a 4×4 matrix. -/
def get_coxeter_matrix : List Nat → List (List Nat)
  | [a, b, c] => [[1, a, b], [a, 1, c], [b, c, 1]]
  | [a, b, c, d, e, f] => [[1, a, b, c], [a, 1, d, e], [b, d, 1, f], [c, e, f, 1]]
  | _ => []

/-- Entry `M[i][j]` of a matrix given as a list of rows. -/
def coxEntry (M : List (List Nat)) (i j : Nat) : Nat :=
  (M.getD i []).getD j 0

/-- `self.symmetry_gens = tuple(range(dim))`. -/
def symmetry_gens (dim : Nat) : List Nat := List.range dim

/-- `self.symmetry_rels = tuple((i, j) * m[i][j] for i, j in combinations(gens, 2))`. -/
def symmetry_rels (cox : Nat → Nat → Nat) (dim : Nat) : List Word :=
  (combinations2 (symmetry_gens dim)).map (fun p => wordPow p.1 p.2 (cox p.1 p.2))

/-- `BasePolytope._transform`: successively apply the reflection named by each
letter of the word, left to right (row vector times matrix, in word order). -/
def transform {V : Type} (refl : Nat → V → V) (vector : V) (word : Word) : V :=
  word.foldl (fun v w => refl w v) vector

/-- `BasePolytope._move`: transform a vertex index by a word via repeated
lookup in the vertex-level action table. -/
def move (vtable : Nat → Nat → Nat) (vertex : Nat) (word : Word) : Nat :=
  word.foldl (fun v w => vtable v w) vertex

/-- `vgens = [(i,) for i, active in enumerate(self.active) if not active]`. -/
def vgens (active : List Bool) : List Word :=
  (active.enum.filter (fun p => !p.2)).map (fun p => [p.1])

/-- Data computed by `BasePolytope.get_vertices`. -/
structure VertexStage (V : Type) where
  vtable : Nat → Nat → Nat
  vwords : List Word
  num_vertices : Nat
  vertex_coords : List V

/-- `BasePolytope.get_vertices`: enumerate cosets of the vertex stabilizer,
number the vertices by the word list, realize each coordinate by
transforming the initial vertex by the corresponding word. -/
def get_vertices {V : Type} (C : Collab) (cox : Nat → Nat → Nat) (dim : Nat)
    (active : List Bool) (refl : Nat → V → V) (init_v : V) : VertexStage V :=
  let r := C.enum (symmetry_gens dim) (symmetry_rels cox dim) (vgens active)
  { vtable := r.table
    vwords := r.words
    num_vertices := r.words.length
    vertex_coords := r.words.map (fun w => transform refl init_v w) }

/-- The indices `i` with `active[i]` true, in order
(`for i, active in enumerate(self.active): if active: …`). -/
def activeIndices (active : List Bool) : List Nat :=
  (active.enum.filter (fun p => p.2)).map (fun p => p.1)

/-- Inner loop of `BasePolytope.get_edges` for one active mirror `i`:
fold over the representative words, appending `(move(0,w), move(0,(i,)+w))`
unless that pair or its reverse is already collected. -/
def edgesOfType (vtable : Nat → Nat → Nat) (words : List Word) (i : Nat) :
    List (Nat × Nat) :=
  words.foldl
    (fun elist word =>
      let v1 := move vtable 0 word
      let v2 := move vtable 0 (i :: word)
      if (v1, v2) ∈ elist ∨ (v2, v1) ∈ elist then elist
      else elist ++ [(v1, v2)])
    []

/-- Data computed by an edge-building stage. -/
structure EdgeStage (V : Type) where
  edge_indices : List (List (Nat × Nat))
  edge_coords : List (List (V × V))
  num_edges : Nat

/-- `BasePolytope.get_edges`: one edge list per active mirror, realized
coordinates looked up from the vertex coordinate list. -/
def get_edges {V : Type} (C : Collab) (cox : Nat → Nat → Nat) (dim : Nat)
    (active : List Bool) (vtable : Nat → Nat → Nat)
    (vertex_coords : List V) (dflt : V) : EdgeStage V :=
  let lists := (activeIndices active).map
    (fun i => edgesOfType vtable
      (C.enum (symmetry_gens dim) (symmetry_rels cox dim) [[i]]).words i)
  { edge_indices := lists
    edge_coords := lists.map (fun el =>
      el.map (fun e => (vertex_coords.getD e.1 dflt, vertex_coords.getD e.2 dflt)))
    num_edges := (lists.map List.length).sum }

/-- Modelled from the spec: `helpers.check_duplicate_face` (the helpers file
is not part of the engine source). A candidate face is a duplicate iff it
matches an already-collected face up to cyclic rotation and reversal of the
vertex-index sequence. -/
def check_duplicate_face (f : List Nat) (flist : List (List Nat)) : Bool :=
  flist.any (fun g => decide (f ~r g) || decide (f.reverse ~r g))

/-- Inner loop shared by `BasePolytope.get_faces` and `Snub.get_faces`:
fold over words, transforming the base cycle `f0` vertex-wise by each word
and appending the result unless `check_duplicate_face` rejects it. -/
def facesOfType (vtable : Nat → Nat → Nat) (words : List Word)
    (f0 : List Nat) : List (List Nat) :=
  words.foldl
    (fun flist word =>
      let f := f0.map (fun v => move vtable v word)
      if check_duplicate_face f flist then flist else flist ++ [f])
    []

/-- Base face cycle when both mirrors are active: for each `k < m` append
`move(0, (i,j)*k)` and `move(0, (j,) + (i,j)*k)`. -/
def faceF0Both (vtable : Nat → Nat → Nat) (i j m : Nat) : List Nat :=
  (List.range m).flatMap
    (fun k => [move vtable 0 (wordPow i j k), move vtable 0 (j :: wordPow i j k)])

/-- Base face cycle when exactly one mirror is active: the `m`-cycle
`move(0, (i,j)*k)` for `k < m`. -/
def faceF0Single (vtable : Nat → Nat → Nat) (i j m : Nat) : List Nat :=
  (List.range m).map (fun k => move vtable 0 (wordPow i j k))

/-- The case analysis of `BasePolytope.get_faces` for a mirror pair `(i, j)`:
returns the stabilizer generators and the base face cycle, or `none` when no
face of this type exists. -/
def faceCase (cox : Nat → Nat → Nat) (active : List Bool)
    (vtable : Nat → Nat → Nat) (i j : Nat) : Option (List Word × List Nat) :=
  if active.getD i false && active.getD j false then
    some ([[i, j]], faceF0Both vtable i j (cox i j))
  else if active.getD i false && decide (cox i j > 2) then
    some ([[i, j], [i]], faceF0Single vtable i j (cox i j))
  else if active.getD j false && decide (cox i j > 2) then
    some ([[i, j], [j]], faceF0Single vtable i j (cox i j))
  else none

/-- Data computed by a face-building stage. -/
structure FaceStage (V : Type) where
  face_indices : List (List (List Nat))
  face_coords : List (List (List V))
  num_faces : Nat

/-- `BasePolytope.get_faces`: iterate over mirror pairs, resolve the case
analysis, enumerate cosets of the chosen stabilizer and collect faces with
duplicate rejection; coordinates looked up from the vertex list. -/
def get_faces {V : Type} (C : Collab) (cox : Nat → Nat → Nat) (dim : Nat)
    (active : List Bool) (vtable : Nat → Nat → Nat)
    (vertex_coords : List V) (dflt : V) : FaceStage V :=
  let lists := (combinations2 (symmetry_gens dim)).filterMap
    (fun p => (faceCase cox active vtable p.1 p.2).map
      (fun fc => facesOfType vtable
        (C.enum (symmetry_gens dim) (symmetry_rels cox dim) fc.1).words fc.2))
  { face_indices := lists
    face_coords := lists.map (fun fl =>
      fl.map (fun face => face.map (fun v => vertex_coords.getD v dflt)))
    num_faces := (lists.map List.length).sum }

/-- `Polyhedra.__init__` raises iff
`not (len(upper_triangle) == len(init_dist) == 3)`. -/
def polyhedra_init_raises (upper_triangle : List Nat) (init_dist : List ℚ) : Bool :=
  !(upper_triangle.length == init_dist.length && init_dist.length == 3)

/-- `Polychora.__init__` raises iff
`not len(upper_triangle) == 6 and len(init_dist) == 4`, which Python parses
as `(not (len(upper_triangle) == 6)) and (len(init_dist) == 4)`. -/
def polychora_init_raises (upper_triangle : List Nat) (init_dist : List ℚ) : Bool :=
  !(upper_triangle.length == 6) && (init_dist.length == 4)

/-- `Snub.__init__`: `self.symmetry_gens = (0, 1, 2, 3)`. -/
def snub_symmetry_gens : List Nat := [0, 1, 2, 3]

/-- `Snub.__init__`: the relation words
`((0,)*m[0][1], (2,)*m[1][2], (0,2)*m[0][2], (0,1), (2,3))`. -/
def snub_symmetry_rels (cox : Nat → Nat → Nat) : List Word :=
  [List.replicate (cox 0 1) 0, List.replicate (cox 1 2) 2,
   wordPow 0 2 (cox 0 2), [0, 1], [2, 3]]

/-- `Snub._transform`: generator symbol `0` acts as the reflection pair
`ρ0` then `ρ1`; every other symbol acts as `ρ1` then `ρ2`. -/
def snub_transform {V : Type} (refl : Nat → V → V) (vertex : V) (word : Word) : V :=
  word.foldl (fun v g => if g == 0 then refl 1 (refl 0 v) else refl 2 (refl 1 v)) vertex

/-- `Snub.get_vertices`: single enumeration of the rotation presentation with
no subgroup generators; coordinates realized through `snub_transform`. -/
def snub_get_vertices {V : Type} (C : Collab) (cox : Nat → Nat → Nat)
    (refl : Nat → V → V) (init_v : V) : VertexStage V :=
  let r := C.enum snub_symmetry_gens (snub_symmetry_rels cox) []
  { vtable := r.table
    vwords := r.words
    num_vertices := r.words.length
    vertex_coords := r.words.map (fun w => snub_transform refl init_v w) }

/-- Iteration order of the `Snub.rotations` dict: `(0,), (2,), (0, 2)`. -/
def snub_rotKeys : List Word := [[0], [2], [0, 2]]

/-- Inner loop of `Snub.get_edges` for one rotation: fold over the vertex
words, transforming the base edge `e0` and appending unless the pair or its
reverse is already collected. -/
def snubEdgesOfType (vtable : Nat → Nat → Nat) (vwords : List Word)
    (e0 : Nat × Nat) : List (Nat × Nat) :=
  vwords.foldl
    (fun elist word =>
      let e := (move vtable e0.1 word, move vtable e0.2 word)
      if e ∈ elist ∨ (e.2, e.1) ∈ elist then elist
      else elist ++ [e])
    []

/-- `Snub.get_edges`: one edge list per rotation key, base edge
`(0, move(0, rot))`, coordinates looked up from the vertex list. -/
def snub_get_edges {V : Type} (vtable : Nat → Nat → Nat) (vwords : List Word)
    (vertex_coords : List V) (dflt : V) : EdgeStage V :=
  let lists := snub_rotKeys.map
    (fun rot => snubEdgesOfType vtable vwords (0, move vtable 0 rot))
  { edge_indices := lists
    edge_coords := lists.map (fun el =>
      el.map (fun e => (vertex_coords.getD e.1 dflt, vertex_coords.getD e.2 dflt)))
    num_edges := (lists.map List.length).sum }

/-- The three fixed base cycles of `Snub.get_faces`: the `p`-cycle of
rotation `0`, the `q`-cycle of rotation `2`, and the triangle
`(0, move(0,(2,)), move(0,(0,2)))`. -/
def snub_face_orbits (vtable : Nat → Nat → Nat) (cox : Nat → Nat → Nat) :
    List (List Nat) :=
  [(List.range (cox 0 1)).map (fun k => move vtable 0 (List.replicate k 0)),
   (List.range (cox 1 2)).map (fun k => move vtable 0 (List.replicate k 2)),
   [0, move vtable 0 [2], move vtable 0 [0, 2]]]

/-- `Snub.get_faces`: expand each fixed base cycle over the vertex words with
duplicate rejection; coordinates looked up from the vertex list. -/
def snub_get_faces {V : Type} (vtable : Nat → Nat → Nat) (cox : Nat → Nat → Nat)
    (vwords : List Word) (vertex_coords : List V) (dflt : V) : FaceStage V :=
  let lists := (snub_face_orbits vtable cox).map
    (fun f0 => facesOfType vtable vwords f0)
  { face_indices := lists
    face_coords := lists.map (fun fl =>
      fl.map (fun face => face.map (fun v => vertex_coords.getD v dflt)))
    num_faces := (lists.map List.length).sum }

/-! ### Shared lemmas -/

/-- Unfolding `transform` on a cons: the head reflection is applied first. -/
theorem transform_cons {V : Type} (refl : Nat → V → V) (v : V) (g : Nat) (w : Word) :
    transform refl v (g :: w) = transform refl (refl g v) w := rfl

/-- `transform` on the empty word is the identity. -/
theorem transform_nil {V : Type} (refl : Nat → V → V) (v : V) :
    transform refl v [] = v := rfl

/-- Unfolding `move` on a cons: one action-table lookup, then the rest. -/
theorem move_cons (vtable : Nat → Nat → Nat) (v g : Nat) (w : Word) :
    move vtable v (g :: w) = move vtable (vtable v g) w := rfl

/-- `move` on the empty word is the identity. -/
theorem move_nil (vtable : Nat → Nat → Nat) (v : Nat) :
    move vtable v [] = v := rfl

/-- Membership in `combinations2` of an appended list. -/
theorem mem_combinations2_append {l1 l2 : List Nat} {p : Nat × Nat} :
    p ∈ combinations2 (l1 ++ l2) ↔
      p ∈ combinations2 l1 ∨ (p.1 ∈ l1 ∧ p.2 ∈ l2) ∨ p ∈ combinations2 l2 := by
  induction l1 with
  | nil => simp [combinations2]
  | cons x xs ih =>
    rcases p with ⟨a, b⟩
    simp only [List.cons_append, combinations2, List.append_eq, List.mem_append,
      List.mem_map, List.mem_cons, Prod.mk.injEq, ih]
    constructor
    · rintro (⟨y, hy, rfl, rfl⟩ | h | ⟨h1, h2⟩ | h)
      · rcases hy with h' | h'
        · exact Or.inl (Or.inl ⟨y, h', rfl, rfl⟩)
        · exact Or.inr (Or.inl ⟨Or.inl rfl, h'⟩)
      · exact Or.inl (Or.inr h)
      · exact Or.inr (Or.inl ⟨Or.inr h1, h2⟩)
      · exact Or.inr (Or.inr h)
    · rintro ((⟨y, hy, rfl, rfl⟩ | h) | ⟨rfl | h1, h2⟩ | h)
      · exact Or.inl ⟨y, Or.inl hy, rfl, rfl⟩
      · exact Or.inr (Or.inl h)
      · exact Or.inl ⟨b, Or.inr h2, rfl, rfl⟩
      · exact Or.inr (Or.inr (Or.inl ⟨h1, h2⟩))
      · exact Or.inr (Or.inr (Or.inr h))

/-- `(i, j) ∈ combinations2 (range dim)` exactly for `i < j < dim`. -/
theorem mem_combinations2_range {dim i j : Nat} :
    (i, j) ∈ combinations2 (List.range dim) ↔ i < j ∧ j < dim := by
  induction dim with
  | zero => simp [combinations2]
  | succ n ih =>
    rw [List.range_succ, mem_combinations2_append]
    simp only [combinations2, List.map_nil, List.append_nil, List.not_mem_nil,
      or_false, List.mem_singleton, List.mem_range, ih]
    omega

/-- A word is a vertex-stabilizer generator iff it is the singleton `(i,)`
of an inactive mirror `i`. -/
theorem mem_vgens {active : List Bool} {w : Word} :
    w ∈ vgens active ↔ ∃ i, active[i]? = some false ∧ w = [i] := by
  simp only [vgens, List.mem_map, List.mem_filter]
  constructor
  · rintro ⟨⟨i, b⟩, ⟨hmem, hb⟩, rfl⟩
    rw [List.mk_mem_enum_iff_getElem?] at hmem
    rcases b with _ | _
    · exact ⟨i, hmem, rfl⟩
    · simp at hb
  · rintro ⟨i, hmem, rfl⟩
    exact ⟨(i, false), ⟨List.mk_mem_enum_iff_getElem?.mpr hmem, rfl⟩, rfl⟩

/-- An index is iterated over by the edge builder iff its mirror is active. -/
theorem mem_activeIndices {active : List Bool} {i : Nat} :
    i ∈ activeIndices active ↔ active[i]? = some true := by
  simp only [activeIndices, List.mem_map, List.mem_filter]
  constructor
  · rintro ⟨⟨k, b⟩, ⟨hmem, hb⟩, rfl⟩
    rw [List.mk_mem_enum_iff_getElem?] at hmem
    rcases b with _ | _
    · simp at hb
    · exact hmem
  · intro hmem
    exact ⟨(i, true), ⟨List.mk_mem_enum_iff_getElem?.mpr hmem, rfl⟩, rfl⟩

/-- Generic dedup fold: if a failed test guarantees the relation against every
already-collected element, the fold preserves pairwiseness. -/
theorem foldl_dedup_pairwise {α β : Type} (R : α → α → Prop) (gen : β → α)
    (P : α → List α → Prop) [∀ x l, Decidable (P x l)]
    (hP : ∀ x acc, ¬ P x acc → ∀ y ∈ acc, R y x) :
    ∀ (ws : List β) (init : List α), init.Pairwise R →
      (ws.foldl (fun acc w => if P (gen w) acc then acc else acc ++ [gen w])
        init).Pairwise R := by
  intro ws
  induction ws with
  | nil => intro init h; exact h
  | cons w ws ih =>
    intro init hinit
    simp only [List.foldl_cons]
    by_cases h : P (gen w) init
    · rw [if_pos h]; exact ih init hinit
    · rw [if_neg h]
      refine ih _ (List.pairwise_append.mpr ⟨hinit, by simp, ?_⟩)
      intro a ha b hb
      rw [List.mem_singleton] at hb
      subst hb
      exact hP _ _ h a ha

/-- Generic dedup fold: every element of the result was in the initial
accumulator or is generated from one of the folded-over items. -/
theorem foldl_dedup_mem {α β : Type} (gen : β → α)
    (P : α → List α → Prop) [∀ x l, Decidable (P x l)] :
    ∀ (ws : List β) (init : List α) (x : α),
      x ∈ ws.foldl (fun acc w => if P (gen w) acc then acc else acc ++ [gen w]) init →
      x ∈ init ∨ ∃ w ∈ ws, x = gen w := by
  intro ws
  induction ws with
  | nil => intro init x h; exact Or.inl h
  | cons w ws ih =>
    intro init x h
    simp only [List.foldl_cons] at h
    by_cases hP : P (gen w) init
    · rw [if_pos hP] at h
      rcases ih init x h with h' | ⟨w', hw', rfl⟩
      · exact Or.inl h'
      · exact Or.inr ⟨w', List.mem_cons_of_mem _ hw', rfl⟩
    · rw [if_neg hP] at h
      rcases ih _ x h with h' | ⟨w', hw', rfl⟩
      · rcases List.mem_append.mp h' with h'' | h''
        · exact Or.inl h''
        · rw [List.mem_singleton] at h''
          exact Or.inr ⟨w, List.mem_cons_self _ _, h''⟩
      · exact Or.inr ⟨w', List.mem_cons_of_mem _ hw', rfl⟩

/-- Two face cycles are duplicates when they agree up to cyclic rotation,
possibly composed with reversal of the sequence. -/
def FaceDup (f g : List Nat) : Prop := f ~r g ∨ f.reverse ~r g

/-- Face duplication is symmetric. -/
theorem FaceDup.symm {f g : List Nat} (h : FaceDup f g) : FaceDup g f := by
  rcases h with h | h
  · exact Or.inl h.symm
  · right
    have h2 := h.symm.reverse
    rwa [List.reverse_reverse] at h2

/-- Every pair the per-type edge fold collects comes from a representative
word `w`, with ends `move(0, w)` and `move(0, (i,) + w)`. -/
theorem edgesOfType_mem (vtable : Nat → Nat → Nat) (words : List Word) (i : Nat) :
    ∀ e ∈ edgesOfType vtable words i,
      ∃ w ∈ words, e = (move vtable 0 w, move vtable 0 (i :: w)) := by
  intro e he
  have h := foldl_dedup_mem
    (fun w : Word => (move vtable 0 w, move vtable 0 (i :: w)))
    (fun x acc => x ∈ acc ∨ (x.2, x.1) ∈ acc) words [] e he
  rcases h with h | h
  · exact absurd h (List.not_mem_nil e)
  · exact h

/-- The per-type edge fold never collects a pair twice, nor a pair and its
reverse. -/
theorem edgesOfType_pairwise (vtable : Nat → Nat → Nat) (words : List Word)
    (i : Nat) :
    (edgesOfType vtable words i).Pairwise (fun a b => a ≠ b ∧ a ≠ (b.2, b.1)) := by
  refine foldl_dedup_pairwise (fun a b => a ≠ b ∧ a ≠ (b.2, b.1))
    (fun w : Word => (move vtable 0 w, move vtable 0 (i :: w)))
    (fun x acc => x ∈ acc ∨ (x.2, x.1) ∈ acc) ?_ words [] List.Pairwise.nil
  intro x acc hx y hy
  rw [not_or] at hx
  exact ⟨fun h => hx.1 (h ▸ hy), fun h => hx.2 (h ▸ hy)⟩

/-- The snub per-rotation edge fold never collects a pair twice, nor a pair
and its reverse. -/
theorem snubEdgesOfType_pairwise (vtable : Nat → Nat → Nat) (vwords : List Word)
    (e0 : Nat × Nat) :
    (snubEdgesOfType vtable vwords e0).Pairwise
      (fun a b => a ≠ b ∧ a ≠ (b.2, b.1)) := by
  refine foldl_dedup_pairwise (fun a b => a ≠ b ∧ a ≠ (b.2, b.1))
    (fun w : Word => (move vtable e0.1 w, move vtable e0.2 w))
    (fun x acc => x ∈ acc ∨ (x.2, x.1) ∈ acc) ?_ vwords [] List.Pairwise.nil
  intro x acc hx y hy
  rw [not_or] at hx
  exact ⟨fun h => hx.1 (h ▸ hy), fun h => hx.2 (h ▸ hy)⟩

/-- Unfolding the both-active base cycle at `m + 1`: two more entries are
appended. -/
theorem faceF0Both_succ (vtable : Nat → Nat → Nat) (i j m : Nat) :
    faceF0Both vtable i j (m + 1)
      = faceF0Both vtable i j m
        ++ [move vtable 0 (wordPow i j m), move vtable 0 (j :: wordPow i j m)] := by
  unfold faceF0Both
  rw [List.range_succ, List.flatMap_append]
  simp

/-- The both-active base cycle has `2·m` entries. -/
theorem faceF0Both_length (vtable : Nat → Nat → Nat) (i j m : Nat) :
    (faceF0Both vtable i j m).length = 2 * m := by
  induction m with
  | zero => rfl
  | succ n ih =>
    rw [faceF0Both_succ, List.length_append, ih]
    simp
    omega

/-- The both-active base cycle alternates `move(0, (i,j)*k)` at even
positions and `move(0, (j,) + (i,j)*k)` at odd positions. -/
theorem faceF0Both_getElem (vtable : Nat → Nat → Nat) (i j : Nat) {m k : Nat}
    (h : k < m) :
    (faceF0Both vtable i j m)[2 * k]? = some (move vtable 0 (wordPow i j k))
    ∧ (faceF0Both vtable i j m)[2 * k + 1]?
        = some (move vtable 0 (j :: wordPow i j k)) := by
  induction m with
  | zero => omega
  | succ n ih =>
    rw [faceF0Both_succ]
    have hlen := faceF0Both_length vtable i j n
    rcases Nat.lt_succ_iff_lt_or_eq.mp h with h' | rfl
    · constructor
      · rw [List.getElem?_append_left (by omega)]
        exact (ih h').1
      · rw [List.getElem?_append_left (by omega)]
        exact (ih h').2
    · constructor
      · rw [List.getElem?_append_right (by omega)]
        rw [hlen]
        simp
      · rw [List.getElem?_append_right (by omega)]
        rw [hlen]
        simp

/-- The single-active base cycle has `m` entries, the k-th being
`move(0, (i,j)*k)`. -/
theorem faceF0Single_spec (vtable : Nat → Nat → Nat) (i j m : Nat) :
    (faceF0Single vtable i j m).length = m
    ∧ ∀ k, k < m →
        (faceF0Single vtable i j m)[k]? = some (move vtable 0 (wordPow i j k)) := by
  constructor
  · simp [faceF0Single]
  · intro k hk
    unfold faceF0Single
    rw [List.getElem?_map, List.getElem?_range hk]
    rfl

/-- The face fold collects no cycle that duplicates (up to rotation and
reversal) an earlier-collected cycle. -/
theorem facesOfType_pairwise (vtable : Nat → Nat → Nat) (words : List Word)
    (f0 : List Nat) :
    (facesOfType vtable words f0).Pairwise (fun g f => ¬ FaceDup f g) := by
  refine foldl_dedup_pairwise (fun g f => ¬ FaceDup f g)
    (fun w : Word => f0.map (fun v => move vtable v w))
    (fun f acc => check_duplicate_face f acc = true) ?_ words [] List.Pairwise.nil
  intro f acc hf g hg hdup
  apply hf
  simp only [check_duplicate_face, List.any_eq_true]
  refine ⟨g, hg, ?_⟩
  rcases hdup with h | h
  · simp [h]
  · simp [h]

/-- Strengthening by symmetry of `FaceDup`: no two collected cycles are
duplicates of each other in either direction. -/
theorem facesOfType_pairwise_symm (vtable : Nat → Nat → Nat) (words : List Word)
    (f0 : List Nat) :
    (facesOfType vtable words f0).Pairwise
      (fun f g => ¬ FaceDup f g ∧ ¬ FaceDup g f) :=
  (facesOfType_pairwise vtable words f0).imp
    (fun h => ⟨fun h2 => h h2.symm, h⟩)

/-! ### Concrete instances used to instantiate theorems with hypotheses -/

/-- A concrete enumeration collaborator for instantiating theorems. -/
def testCollab : Collab :=
  ⟨fun _ _ _ => { table := fun v g => v + g, words := [[], [0]], count := 2 }⟩

/-- The tetrahedral Coxeter matrix (3, 2, 3) as an entry function. -/
def testCox : Nat → Nat → Nat := coxEntry (get_coxeter_matrix [3, 2, 3])

/-- A concrete reflection action on integers. -/
def testRefl : Nat → Int → Int := fun w v => 2 * v + Int.ofNat w + 1

/-! ### Claims -/

/-- C1: after the vertex stage, `num_vertices` equals exactly the coset count
returned by the enumeration of the full group modulo the vertex stabilizer
(given the collaborator contract that it reports one representative word per
coset), and `vertex_coords` has exactly one coordinate entry per coset — no
deduplication or loss. -/
theorem C1_vertex_count_eq_coset_count {V : Type} (C : Collab)
    (cox : Nat → Nat → Nat) (dim : Nat) (active : List Bool)
    (refl : Nat → V → V) (init_v : V)
    (hcontract : (C.enum (symmetry_gens dim) (symmetry_rels cox dim) (vgens active)).count
      = (C.enum (symmetry_gens dim) (symmetry_rels cox dim) (vgens active)).words.length) :
    (get_vertices C cox dim active refl init_v).num_vertices
        = (C.enum (symmetry_gens dim) (symmetry_rels cox dim) (vgens active)).count
    ∧ (get_vertices C cox dim active refl init_v).vertex_coords.length
        = (get_vertices C cox dim active refl init_v).num_vertices := by
  refine ⟨hcontract.symm, ?_⟩
  simp [get_vertices]

/-- Witness for C1 at a concrete collaborator and input. -/
theorem C1_witness :
    (get_vertices testCollab testCox 3 [true, false, false] testRefl (0 : Int)).num_vertices
        = (testCollab.enum (symmetry_gens 3) (symmetry_rels testCox 3)
            (vgens [true, false, false])).count
    ∧ (get_vertices testCollab testCox 3 [true, false, false] testRefl
          (0 : Int)).vertex_coords.length
        = (get_vertices testCollab testCox 3 [true, false, false] testRefl
            (0 : Int)).num_vertices :=
  C1_vertex_count_eq_coset_count testCollab testCox 3 [true, false, false] testRefl 0 rfl

/-- C2: every coset's realized coordinate is the initial point transformed by
the reflections named in its representative word, applied left to right
(head letter first), and the vertex-stabilizer subgroup is generated exactly
by the singleton words `(i,)` of the mirrors with inactive flag. -/
theorem C2_vertex_realization_and_stabilizer {V : Type} (C : Collab)
    (cox : Nat → Nat → Nat) (dim : Nat) (active : List Bool)
    (refl : Nat → V → V) (init_v : V) :
    (∀ (k : Nat) (w : Word),
      (get_vertices C cox dim active refl init_v).vwords[k]? = some w →
      (get_vertices C cox dim active refl init_v).vertex_coords[k]?
        = some (transform refl init_v w))
    ∧ (∀ v : V, transform refl v [] = v)
    ∧ (∀ (v : V) (g : Nat) (w : Word),
        transform refl v (g :: w) = transform refl (refl g v) w)
    ∧ (∀ w : Word, w ∈ vgens active ↔ ∃ i, active[i]? = some false ∧ w = [i]) := by
  refine ⟨?_, fun v => rfl, fun v g w => rfl, fun w => mem_vgens⟩
  intro k w hk
  have hcoords : (get_vertices C cox dim active refl init_v).vertex_coords
      = (get_vertices C cox dim active refl init_v).vwords.map
          (fun w => transform refl init_v w) := rfl
  rw [hcoords, List.getElem?_map, hk]
  rfl

/-- Witness for C2: the second coset of the test collaborator has word (0,)
and its coordinate is the transformed initial point. -/
theorem C2_witness :
    (get_vertices testCollab testCox 3 [true, false, false] testRefl
        (5 : Int)).vertex_coords[1]?
      = some (transform testRefl 5 [0]) :=
  (C2_vertex_realization_and_stabilizer testCollab testCox 3 [true, false, false]
    testRefl 5).1 1 [0] rfl

/-- C3: the edge builder iterates exactly over the active mirror indices;
for each such index `i` it enumerates cosets of the subgroup generated by
`{(i,)}`, every collected edge has vertex indices `move(0, w)` and
`move(0, (i,) + w)` for a representative word `w`, `move` repeatedly applies
the vertex-level action table, and realized edge coordinates are looked up
from the already-computed vertex coordinate list. -/
theorem C3_edge_builder {V : Type} (C : Collab) (cox : Nat → Nat → Nat)
    (dim : Nat) (active : List Bool) (vtable : Nat → Nat → Nat)
    (vcoords : List V) (dflt : V) :
    (get_edges C cox dim active vtable vcoords dflt).edge_indices
        = (activeIndices active).map (fun i => edgesOfType vtable
            (C.enum (symmetry_gens dim) (symmetry_rels cox dim) [[i]]).words i)
    ∧ (∀ i : Nat, i ∈ activeIndices active ↔ active[i]? = some true)
    ∧ (∀ i : Nat, ∀ e ∈ edgesOfType vtable
          (C.enum (symmetry_gens dim) (symmetry_rels cox dim) [[i]]).words i,
        ∃ w ∈ (C.enum (symmetry_gens dim) (symmetry_rels cox dim) [[i]]).words,
          e = (move vtable 0 w, move vtable 0 (i :: w)))
    ∧ (∀ v : Nat, move vtable v [] = v)
    ∧ (∀ (v g : Nat) (w : Word), move vtable v (g :: w) = move vtable (vtable v g) w)
    ∧ (get_edges C cox dim active vtable vcoords dflt).edge_coords
        = (get_edges C cox dim active vtable vcoords dflt).edge_indices.map
            (fun el => el.map
              (fun e => (vcoords.getD e.1 dflt, vcoords.getD e.2 dflt))) := by
  exact ⟨rfl, fun i => mem_activeIndices,
    fun i => edgesOfType_mem vtable _ i,
    fun v => rfl, fun v g w => rfl, rfl⟩

/-- Witness for C3: the edge collected from the empty representative word has
ends `move(0, ())` and `move(0, (0,))`. -/
theorem C3_witness :
    ∃ w ∈ (testCollab.enum (symmetry_gens 3) (symmetry_rels testCox 3)
        [[0]]).words,
      ((0 : Nat), (1 : Nat))
        = (move (fun v g => v + g + 1) 0 w, move (fun v g => v + g + 1) 0 (0 :: w)) :=
  (C3_edge_builder testCollab testCox 3 [true, false, false]
    (fun v g => v + g + 1) ([] : List Int) 0).2.2.1 0 (0, 1) (by decide)

/-- C4: in both the base builder and the snub variant, every per-type edge
list is undirected-unique: it never contains two entries that are equal or
mutually reversed. -/
theorem C4_edges_undirected_unique {V : Type} (C : Collab) (cox : Nat → Nat → Nat)
    (dim : Nat) (active : List Bool) (vtable : Nat → Nat → Nat)
    (vcoords : List V) (dflt : V) (vwords : List Word) :
    (∀ l ∈ (get_edges C cox dim active vtable vcoords dflt).edge_indices,
      l.Pairwise (fun a b => a ≠ b ∧ a ≠ (b.2, b.1)))
    ∧ (∀ l ∈ (snub_get_edges vtable vwords vcoords dflt).edge_indices,
      l.Pairwise (fun a b => a ≠ b ∧ a ≠ (b.2, b.1))) := by
  constructor
  · intro l hl
    have h : (get_edges C cox dim active vtable vcoords dflt).edge_indices
        = (activeIndices active).map (fun i => edgesOfType vtable
            (C.enum (symmetry_gens dim) (symmetry_rels cox dim) [[i]]).words i) := rfl
    rw [h] at hl
    rcases List.mem_map.mp hl with ⟨i, _, rfl⟩
    exact edgesOfType_pairwise vtable _ i
  · intro l hl
    have h : (snub_get_edges vtable vwords vcoords dflt).edge_indices
        = snub_rotKeys.map
            (fun rot => snubEdgesOfType vtable vwords (0, move vtable 0 rot)) := rfl
    rw [h] at hl
    rcases List.mem_map.mp hl with ⟨rot, _, rfl⟩
    exact snubEdgesOfType_pairwise vtable vwords _

/-- Witness for C4: the type-0 edge list of the test input is
undirected-unique. -/
theorem C4_witness :
    (edgesOfType (fun v g => v + g + 1)
        (testCollab.enum (symmetry_gens 3) (symmetry_rels testCox 3) [[0]]).words
        0).Pairwise (fun a b => a ≠ b ∧ a ≠ (b.2, b.1)) :=
  (C4_edges_undirected_unique testCollab testCox 3 [true, false, false]
    (fun v g => v + g + 1) ([] : List Int) 0 [[], [0]]).1 _ (by decide)

/-- C5: face construction per unordered mirror pair (i, j): both mirrors
active gives the 2·m[i][j]-cycle alternating `move(0,(i,j)*k)` and
`move(0,(j,)+(i,j)*k)` with stabilizer generators {(i,j)}; exactly one
active (say i) with m[i][j] > 2 gives the m[i][j]-cycle `move(0,(i,j)*k)`
with stabilizer generators {(i,j),(i)}; in every other case (neither active,
or the sole active mirror has m[i][j] = 2) no face of this type is
produced. -/
theorem C5_face_case_analysis (cox : Nat → Nat → Nat) (active : List Bool)
    (vtable : Nat → Nat → Nat) (i j : Nat) :
    (active[i]? = some true → active[j]? = some true →
      ∃ f0, faceCase cox active vtable i j = some ([[i, j]], f0)
        ∧ f0.length = 2 * cox i j
        ∧ ∀ k, k < cox i j →
            f0[2 * k]? = some (move vtable 0 (wordPow i j k))
            ∧ f0[2 * k + 1]? = some (move vtable 0 (j :: wordPow i j k)))
    ∧ (active[i]? = some true → active[j]? = some false → 2 < cox i j →
      ∃ f0, faceCase cox active vtable i j = some ([[i, j], [i]], f0)
        ∧ f0.length = cox i j
        ∧ ∀ k, k < cox i j → f0[k]? = some (move vtable 0 (wordPow i j k)))
    ∧ (active[i]? = some false → active[j]? = some true → 2 < cox i j →
      ∃ f0, faceCase cox active vtable i j = some ([[i, j], [j]], f0)
        ∧ f0.length = cox i j
        ∧ ∀ k, k < cox i j → f0[k]? = some (move vtable 0 (wordPow i j k)))
    ∧ (active[i]? = some false → active[j]? = some false →
        faceCase cox active vtable i j = none)
    ∧ (active[i]? = some true → active[j]? = some false → cox i j = 2 →
        faceCase cox active vtable i j = none)
    ∧ (active[i]? = some false → active[j]? = some true → cox i j = 2 →
        faceCase cox active vtable i j = none) := by
  refine ⟨?_, ?_, ?_, ?_, ?_, ?_⟩
  · intro hi hj
    refine ⟨faceF0Both vtable i j (cox i j), ?_,
      faceF0Both_length vtable i j (cox i j), fun k hk => faceF0Both_getElem vtable i j hk⟩
    simp [faceCase, hi, hj]
  · intro hi hj hm
    refine ⟨faceF0Single vtable i j (cox i j), ?_,
      (faceF0Single_spec vtable i j (cox i j)).1,
      fun k hk => (faceF0Single_spec vtable i j (cox i j)).2 k hk⟩
    simp [faceCase, hi, hj, hm]
  · intro hi hj hm
    refine ⟨faceF0Single vtable i j (cox i j), ?_,
      (faceF0Single_spec vtable i j (cox i j)).1,
      fun k hk => (faceF0Single_spec vtable i j (cox i j)).2 k hk⟩
    simp [faceCase, hi, hj, hm]
  · intro hi hj
    simp [faceCase, hi, hj]
  · intro hi hj hm
    simp [faceCase, hi, hj, hm]
  · intro hi hj hm
    simp [faceCase, hi, hj, hm]

/-- Witness for C5: both mirrors 0 and 1 active for the tetrahedral matrix
gives the hexagonal base cycle with stabilizer generator (0, 1). -/
theorem C5_witness :
    ∃ f0, faceCase testCox [true, true, false] (fun v g => v + g + 1) 0 1
        = some ([[0, 1]], f0)
      ∧ f0.length = 2 * testCox 0 1
      ∧ ∀ k, k < testCox 0 1 →
          f0[2 * k]? = some (move (fun v g => v + g + 1) 0 (wordPow 0 1 k))
          ∧ f0[2 * k + 1]?
              = some (move (fun v g => v + g + 1) 0 (1 :: wordPow 0 1 k)) :=
  (C5_face_case_analysis testCox [true, true, false] (fun v g => v + g + 1)
    0 1).1 rfl rfl

/-- C6: in both the base builder and the snub variant, every per-type face
list contains no two cycles that are equal up to cyclic rotation and
reversal of the vertex-index sequence: a candidate cycle is appended only
when the duplicate check against the accumulated list finds no match. -/
theorem C6_faces_unique_up_to_rotation_reversal {V : Type} (C : Collab)
    (cox : Nat → Nat → Nat) (dim : Nat) (active : List Bool)
    (vtable : Nat → Nat → Nat) (vcoords : List V) (dflt : V)
    (vwords : List Word) :
    (∀ l ∈ (get_faces C cox dim active vtable vcoords dflt).face_indices,
      l.Pairwise (fun f g => ¬ FaceDup f g ∧ ¬ FaceDup g f))
    ∧ (∀ l ∈ (snub_get_faces vtable cox vwords vcoords dflt).face_indices,
      l.Pairwise (fun f g => ¬ FaceDup f g ∧ ¬ FaceDup g f)) := by
  constructor
  · intro l hl
    have h : (get_faces C cox dim active vtable vcoords dflt).face_indices
        = (combinations2 (symmetry_gens dim)).filterMap
            (fun p => (faceCase cox active vtable p.1 p.2).map
              (fun fc => facesOfType vtable
                (C.enum (symmetry_gens dim) (symmetry_rels cox dim) fc.1).words
                fc.2)) := rfl
    rw [h] at hl
    rcases List.mem_filterMap.mp hl with ⟨p, _, hsome⟩
    rcases Option.map_eq_some'.mp hsome with ⟨fc, _, rfl⟩
    exact facesOfType_pairwise_symm vtable _ fc.2
  · intro l hl
    have h : (snub_get_faces vtable cox vwords vcoords dflt).face_indices
        = (snub_face_orbits vtable cox).map
            (fun f0 => facesOfType vtable vwords f0) := rfl
    rw [h] at hl
    rcases List.mem_map.mp hl with ⟨f0, _, rfl⟩
    exact facesOfType_pairwise_symm vtable vwords f0

/-- Witness for C6: the single face list of the test input is duplicate-free
up to rotation and reversal. -/
theorem C6_witness :
    (facesOfType (fun v g => v + g + 1)
        (testCollab.enum (symmetry_gens 3) (symmetry_rels testCox 3) [[0, 1]]).words
        (faceF0Single (fun v g => v + g + 1) 0 1 (testCox 0 1))).Pairwise
      (fun f g => ¬ FaceDup f g ∧ ¬ FaceDup g f) :=
  (C6_faces_unique_up_to_rotation_reversal testCollab testCox 3
    [true, false, false] (fun v g => v + g + 1) ([] : List Int) 0 [[], [0]]).1 _
    (by decide)

/-- C7: the engine's own intent (the error message "Six integers and four
floats are required" and the parallel 3D check) is that wrong arity of either
input raises immediately, but the 4D check is mis-parenthesized
(`not a == b and c == d`): with a correct 6-entry Coxeter matrix and a
3-entry distance vector no error is raised, contradicting the claim; the 3D
constructor does raise on wrong arity. -/
theorem C7_polychora_check_bug :
    polychora_init_raises [3, 2, 2, 3, 2, 3] [1, 0, 0] = false
    ∧ polychora_init_raises [3, 2, 3] [1, 0, 0, 0] = true
    ∧ polyhedra_init_raises [3, 2, 3] [1, 0] = true
    ∧ polyhedra_init_raises [3, 2, 3] [1, 0, 0] = false := by
  exact ⟨rfl, rfl, rfl, rfl⟩

/-- C8 counterexample: for the tetrahedral matrix (3, 2, 3), the relation
list handed to the enumeration collaborator does not contain the involution
relation (0, 0) the claim requires. -/
theorem C8_counterexample :
    [0, 0] ∉ symmetry_rels (coxEntry (get_coxeter_matrix [3, 2, 3])) 3 := by
  decide

/-- C8 (amended): the presentation handed to the enumeration collaborator has
generator set `{0,…,n−1}` and a relation list consisting exactly of the braid
words `(i,j)` repeated `m[i][j]` times for the generator pairs `i < j < n`;
involution relations are not passed explicitly (the collaborator's Coxeter
mode treats generators as involutions). -/
theorem C8_presentation_relations (cox : Nat → Nat → Nat) (dim : Nat) :
    symmetry_gens dim = List.range dim
    ∧ (∀ w : Word, w ∈ symmetry_rels cox dim ↔
        ∃ i j, i < j ∧ j < dim ∧ w = wordPow i j (cox i j)) := by
  refine ⟨rfl, fun w => ?_⟩
  simp only [symmetry_rels, symmetry_gens, List.mem_map]
  constructor
  · rintro ⟨⟨i, j⟩, hmem, rfl⟩
    rcases mem_combinations2_range.mp hmem with ⟨hij, hj⟩
    exact ⟨i, j, hij, hj, rfl⟩
  · rintro ⟨i, j, hij, hj, rfl⟩
    exact ⟨(i, j), mem_combinations2_range.mpr ⟨hij, hj⟩, rfl⟩

/-- Witness for C8: the braid word of the pair (0, 1) is in the tetrahedral
relation list. -/
theorem C8_witness :
    wordPow 0 1 3 ∈ symmetry_rels (coxEntry (get_coxeter_matrix [3, 2, 3])) 3 :=
  ((C8_presentation_relations (coxEntry (get_coxeter_matrix [3, 2, 3])) 3).2
    (wordPow 0 1 3)).mpr ⟨0, 1, by decide, by decide, by decide⟩

/-- C9 counterexample: for the Coxeter matrix built from (3, 3, 3) the snub
relation list contains `(0,2)*m[0][2] = (rs)^3` and not the fixed `(rs)^2`
stated by the claim. -/
theorem C9_counterexample :
    wordPow 0 2 2 ∉ snub_symmetry_rels (coxEntry (get_coxeter_matrix [3, 3, 3]))
    ∧ (snub_symmetry_rels (coxEntry (get_coxeter_matrix [3, 3, 3])))[2]?
        = some (wordPow 0 2 3) := by
  exact ⟨by decide, rfl⟩

/-- C9 (amended): the snub presentation has the four abstract generators
`r = 0`, `s = 2` and their formal inverses `1`, `3`, with relation words
`r^p`, `s^q`, `(rs)^m` and the two inverse relations, where `p = m[0][1]`,
`q = m[1][2]` and `m = m[0][2]` are read off the Coxeter matrix (`m = 2` for
the standard snub diagrams `(p, 2, q)`); the vertex orbit is a single coset
enumeration of this presentation with no stabilizer generators, and
`num_vertices` equals that enumeration's word count. -/
theorem C9_snub_presentation_and_vertices {V : Type} (C : Collab)
    (cox : Nat → Nat → Nat) (refl : Nat → V → V) (init_v : V) :
    snub_symmetry_gens = [0, 1, 2, 3]
    ∧ (snub_symmetry_rels cox).length = 5
    ∧ (snub_symmetry_rels cox)[0]? = some (List.replicate (cox 0 1) 0)
    ∧ (snub_symmetry_rels cox)[1]? = some (List.replicate (cox 1 2) 2)
    ∧ (snub_symmetry_rels cox)[2]? = some (wordPow 0 2 (cox 0 2))
    ∧ (snub_symmetry_rels cox)[3]? = some [0, 1]
    ∧ (snub_symmetry_rels cox)[4]? = some [2, 3]
    ∧ (cox 0 2 = 2 → (snub_symmetry_rels cox)[2]? = some [0, 2, 0, 2])
    ∧ (snub_get_vertices C cox refl init_v).num_vertices
        = (C.enum snub_symmetry_gens (snub_symmetry_rels cox) []).words.length
    ∧ (snub_get_vertices C cox refl init_v).vertex_coords.length
        = (snub_get_vertices C cox refl init_v).num_vertices := by
  refine ⟨rfl, rfl, rfl, rfl, rfl, rfl, rfl, ?_, rfl, ?_⟩
  · intro h
    have h2 : (snub_symmetry_rels cox)[2]? = some (wordPow 0 2 (cox 0 2)) := rfl
    rw [h2, h]
    rfl
  · simp [snub_get_vertices]

/-- Witness for C9 at the tetrahedral matrix, whose entry `m[0][2]` is 2. -/
theorem C9_witness :
    (snub_symmetry_rels testCox)[2]? = some [0, 2, 0, 2] :=
  (C9_snub_presentation_and_vertices testCollab testCox testRefl
    (0 : Int)).2.2.2.2.2.2.2.1 (by decide)

/-- C10: in the snub coordinate realization, generator symbol 0 is applied as
the reflection pair ρ0 then ρ1, while every other symbol — 1, 2 and 3 alike,
including the inverse symbols 1 and 3 — is applied as ρ1 then ρ2, so the
inverse generators are realized identically to `s`, not as inverse
transforms. -/
theorem C10_snub_transform_cases {V : Type} (refl : Nat → V → V) (v : V) :
    snub_transform refl v [0] = refl 1 (refl 0 v)
    ∧ (∀ g : Nat, g ≠ 0 → snub_transform refl v [g] = refl 2 (refl 1 v))
    ∧ snub_transform refl v [1] = snub_transform refl v [2]
    ∧ snub_transform refl v [3] = snub_transform refl v [2]
    ∧ (∀ (g : Nat) (w : Word), snub_transform refl v (g :: w)
        = snub_transform refl
            (if g = 0 then refl 1 (refl 0 v) else refl 2 (refl 1 v)) w) := by
  refine ⟨rfl, ?_, rfl, rfl, ?_⟩
  · intro g hg
    match g with
    | 0 => exact absurd rfl hg
    | n + 1 => rfl
  · intro g w
    match g with
    | 0 => rfl
    | n + 1 => rfl

/-- Witness for C10: the inverse symbol 1 is realized as ρ1 then ρ2. -/
theorem C10_witness :
    snub_transform testRefl (7 : Int) [1] = testRefl 2 (testRefl 1 7) :=
  (C10_snub_transform_cases testRefl 7).2.1 1 (by decide)

end Polytopes
